import Mathlib

/-!
Shallow embedding of the `bp-bips` hierarchical-deterministic derivation
library (crate `derive`): the derivation-index model (`indexes.rs`), the
BIP-43 scheme identification (`standard.rs`) and the extended public key
(`xpub.rs`).

Machine integers are modelled as `Nat` with an explicit `% 2^32` (resp.
`% 256`) where Rust release-mode wrapping applies; fallible Rust functions
return `Option` / `Except`; Rust panics (`expect`) are modelled as an
explicit `panicked` outcome.  Rust string slices are modelled as `List
Char`.  The external collaborator crates (`bitcoin_hashes`, `secp256k1`,
`base58`) are not part of this repository; they are abstracted as a record
of byte-level functions (`Crypto`), and every structural theorem
quantifies over the collaborator record.
-/

deriving instance DecidableEq for Except

namespace BPBips

/-- The constant `HARDENED_INDEX_BOUNDARY` from `indexes.rs`: `1u32 << 31`. -/
def HARDENED_INDEX_BOUNDARY : Nat := 2 ^ 31

/-- Modulus of the Rust `u32` type. -/
def U32_MODULUS : Nat := 2 ^ 32

/-- `NormIdx` from `indexes.rs`: newtype over `u32` for unhardened
derivation; the crate's doc comment promises the inner value is always
`< 2^31`. -/
structure NormIdx where
  val : Nat
deriving DecidableEq

/-- `HdnIdx` from `indexes.rs`: newtype over `u32` for hardened
derivation; the crate documents the inner value as zero-based ("always
reduced by `HARDENED_INDEX_BOUNDARY`"). -/
structure HdnIdx where
  val : Nat
deriving DecidableEq

/-- `ChildIdx` from `indexes.rs`: a single derivation path segment. -/
inductive ChildIdx where
  | normal (i : NormIdx)
  | hardened (i : HdnIdx)
deriving DecidableEq

/-- `IndexUnsupported` from `indexes.rs` (with the payloads of
`HdnIdxExpected` / `NormIdxExpected` inlined). -/
inductive IndexUnsupported where
  | hdnIdxExpected (i : NormIdx)
  | normIdxExpected (i : HdnIdx)
deriving DecidableEq

/-- `IndexParseError` from `indexes.rs`.  `invalidInt` covers every
`core::num::ParseIntError` (bad digit, empty string, `u32` overflow);
`overflow` is `IndexOverflow` carrying the raw value. -/
inductive IndexParseError where
  | invalidInt
  | overflow (raw : Nat)
  | unsupported (e : IndexUnsupported)
deriving DecidableEq

/-- Rust `u32::checked_add` on values below `2^32`. -/
def u32CheckedAdd (a b : Nat) : Option Nat :=
  if a + b < U32_MODULUS then some (a + b) else none

/-- The free helper `checked_add_assign` of `indexes.rs` (lines 203-210).
The Rust `&mut u32` parameter is modelled by returning the pair
(returned value, value left in the mutable slot).  The source assigns
`*index = index.checked_add(add)?` BEFORE testing the
`HARDENED_INDEX_BOUNDARY` bound, so on a boundary violation it returns
`None` with the out-of-range sum already stored in the slot. -/
def checkedAddAssignU32 (index add : Nat) : Option Nat × Nat :=
  match u32CheckedAdd index add with
  | none => (none, index)
  | some sum =>
    if HARDENED_INDEX_BOUNDARY ≤ sum then (none, sum) else (some sum, sum)

/-- The free helper `checked_sub_assign` of `indexes.rs` (lines 212-216). -/
def checkedSubAssignU32 (index sub : Nat) : Option Nat × Nat :=
  if sub ≤ index then (some (index - sub), index - sub) else (none, index)

/-- `NormIdx::contains`. -/
def NormIdx.contains (x : NormIdx) (index : Nat) : Bool := x.val == index

/-- `NormIdx::first_index`. -/
def NormIdx.first_index (x : NormIdx) : Nat := x.val

/-- `NormIdx::first_raw_value` (equal to `first_index`). -/
def NormIdx.first_raw_value (x : NormIdx) : Nat := x.first_index

/-- `NormIdx::from_index`; the error is `IndexOverflow` carrying the raw
value. -/
def NormIdx.from_index (index : Nat) : Except Nat NormIdx :=
  if HARDENED_INDEX_BOUNDARY ≤ index then .error index else .ok ⟨index⟩

/-- `NormIdx::from_raw_value`. -/
def NormIdx.from_raw_value (value : Nat) : Except IndexUnsupported NormIdx :=
  if value < HARDENED_INDEX_BOUNDARY then .ok ⟨value⟩
  else .error (.normIdxExpected ⟨value⟩)

/-- `NormIdx::checked_add_assign` (returned value, mutated self). -/
def NormIdx.checked_add_assign (x : NormIdx) (add : Nat) : Option Nat × NormIdx :=
  ((checkedAddAssignU32 x.val add).1, ⟨(checkedAddAssignU32 x.val add).2⟩)

/-- `NormIdx::checked_sub_assign` (returned value, mutated self). -/
def NormIdx.checked_sub_assign (x : NormIdx) (sub : Nat) : Option Nat × NormIdx :=
  ((checkedSubAssignU32 x.val sub).1, ⟨(checkedSubAssignU32 x.val sub).2⟩)

/-- `NormIdx::is_hardened`. -/
def NormIdx.is_hardened (_ : NormIdx) : Bool := false

/-- `HdnIdx::contains`. -/
def HdnIdx.contains (x : HdnIdx) (index : Nat) : Bool := x.val == index

/-- `HdnIdx::first_index` (zero-based value). -/
def HdnIdx.first_index (x : HdnIdx) : Nat := x.val

/-- `HdnIdx::first_raw_value`: `self.0 + HARDENED_INDEX_BOUNDARY` as `u32`
addition; it wraps modulo `2^32` in release builds (and panics in debug
builds) when the inner value is itself `≥ 2^31`. -/
def HdnIdx.first_raw_value (x : HdnIdx) : Nat :=
  (x.val + HARDENED_INDEX_BOUNDARY) % U32_MODULUS

/-- `HdnIdx::from_index`: reduces a raw value `≥ 2^31` by the boundary and
accepts smaller values as-is; never fails. -/
def HdnIdx.from_index (index : Nat) : Except Nat HdnIdx :=
  if HARDENED_INDEX_BOUNDARY ≤ index then .ok ⟨index - HARDENED_INDEX_BOUNDARY⟩
  else .ok ⟨index⟩

/-- `HdnIdx::from_raw_value`. -/
def HdnIdx.from_raw_value (value : Nat) : Except IndexUnsupported HdnIdx :=
  if value < HARDENED_INDEX_BOUNDARY then .error (.hdnIdxExpected ⟨value⟩)
  else .ok ⟨value - HARDENED_INDEX_BOUNDARY⟩

/-- `HdnIdx::checked_add_assign` (returned value, mutated self). -/
def HdnIdx.checked_add_assign (x : HdnIdx) (add : Nat) : Option Nat × HdnIdx :=
  ((checkedAddAssignU32 x.val add).1, ⟨(checkedAddAssignU32 x.val add).2⟩)

/-- `HdnIdx::checked_sub_assign` (returned value, mutated self). -/
def HdnIdx.checked_sub_assign (x : HdnIdx) (sub : Nat) : Option Nat × HdnIdx :=
  ((checkedSubAssignU32 x.val sub).1, ⟨(checkedSubAssignU32 x.val sub).2⟩)

/-- `HdnIdx::is_hardened`. -/
def HdnIdx.is_hardened (_ : HdnIdx) : Bool := true

/-- `ChildIdx::contains`: the hardened arm calls
`index.contains(i | HARDENED_INDEX_BOUNDARY)` on the inner `HdnIdx`. -/
def ChildIdx.contains (c : ChildIdx) (i : Nat) : Bool :=
  match c with
  | .normal index => index.contains i
  | .hardened index => index.contains (i ||| HARDENED_INDEX_BOUNDARY)

/-- `ChildIdx::first_index`. -/
def ChildIdx.first_index (c : ChildIdx) : Nat :=
  match c with
  | .normal index => index.first_index
  | .hardened index => index.first_index

/-- `ChildIdx::first_raw_value`. -/
def ChildIdx.first_raw_value (c : ChildIdx) : Nat :=
  match c with
  | .normal index => index.first_raw_value
  | .hardened index => index.first_raw_value

/-- `ChildIdx::from_raw_value` (never fails): for a raw value `≥ 2^31` the
source constructs `HdnIdx(value)` without reducing by the boundary. -/
def ChildIdx.from_raw_value (value : Nat) : Except IndexUnsupported ChildIdx :=
  if value < HARDENED_INDEX_BOUNDARY then .ok (.normal ⟨value⟩)
  else .ok (.hardened ⟨value⟩)

/-- `ChildIdx::is_hardened`. -/
def ChildIdx.is_hardened (c : ChildIdx) : Bool :=
  match c with
  | .normal _ => false
  | .hardened _ => true

/-- ASCII lowercasing of one character: models Rust `str::to_lowercase`
restricted to the ASCII inputs handled by these parsers. -/
def asciiLowerChar (c : Char) : Char :=
  if 65 ≤ c.toNat ∧ c.toNat ≤ 90 then Char.ofNat (c.toNat + 32) else c

/-- ASCII lowercasing of a whole string. -/
def asciiLower (s : List Char) : List Char := s.map asciiLowerChar

/-- Rust `char::is_ascii_digit`. -/
def isAsciiDigit (c : Char) : Bool := decide (48 ≤ c.toNat ∧ c.toNat ≤ 57)

/-- Decimal value of a digit string. -/
def digitsToNat (ds : List Char) : Nat :=
  ds.foldl (fun a c => a * 10 + (c.toNat - 48)) 0

/-- The digit part consumed by Rust `u32::from_str`: an optional leading
`+` sign is skipped. -/
def u32Digits (s : List Char) : List Char :=
  match s with
  | c :: rest => if c = '+' then rest else s
  | [] => []

/-- Rust `u32::from_str`: optional leading `+`, then one or more ASCII
digits; fails on an empty digit string, a non-digit character, or a value
exceeding `u32::MAX`. -/
def u32FromStr (s : List Char) : Option Nat :=
  if u32Digits s = [] then none
  else if (u32Digits s).all isAsciiDigit then
    if digitsToNat (u32Digits s) < U32_MODULUS then some (digitsToNat (u32Digits s))
    else none
  else none

/-- `impl FromStr for NormIdx`:
`NormIdx::from_index(u32::from_str(s)?).map_err(IndexParseError::from)`. -/
def NormIdx.from_str (s : List Char) : Except IndexParseError NormIdx :=
  match u32FromStr s with
  | none => .error .invalidInt
  | some v =>
    match NormIdx.from_index v with
    | .ok i => .ok i
    | .error raw => .error (.overflow raw)

/-- Rust `str::strip_suffix(['h', 'H', '\''])` as used by
`HdnIdx::from_str`. -/
def stripSuffixAny (s : List Char) : Option (List Char) :=
  match s.getLast? with
  | none => none
  | some c =>
    if c = 'h' ∨ c = 'H' ∨ c = Char.ofNat 39 then some s.dropLast else none

/-- `impl FromStr for HdnIdx`: when a hardened suffix is present the
numeral is taken as the zero-based value WITHOUT any
`HARDENED_INDEX_BOUNDARY` bound check; without a suffix the string is
parsed as a `NormIdx` and reported as `HdnIdxExpected`. -/
def HdnIdx.from_str (s : List Char) : Except IndexParseError HdnIdx :=
  match stripSuffixAny s with
  | some idx =>
    match u32FromStr idx with
    | some n => .ok ⟨n⟩
    | none => .error .invalidInt
  | none =>
    match NormIdx.from_str s with
    | .ok n => .error (.unsupported (.hdnIdxExpected n))
    | .error e => .error e

/-- The `Bip43` scheme enumeration from `standard.rs`. -/
inductive Bip43 where
  | bip44
  | bip84
  | bip49
  | bip86
  | bip45
  | bip48Nested
  | bip48Native
  | bip87
  | bip43 (purpose : HdnIdx)
deriving DecidableEq

/-- The `ParseError` variants of `standard.rs` reachable from
`Bip43::from_str`. -/
inductive Bip43ParseError where
  | invalidPurposeIndex (s : List Char)
  | unrecognizedBipScheme
  | invalidBip43Scheme
  | invalidBip48Scheme
deriving DecidableEq

/-- Rust `str::strip_prefix` on character lists. -/
def dropPref : List Char → List Char → Option (List Char)
  | [], s => some s
  | _ :: _, [] => none
  | p :: ps, c :: cs => if c = p then dropPref ps cs else none

/-- Rust `str::starts_with` on character lists. -/
def startsWithPref (p s : List Char) : Bool := (dropPref p s).isSome

/-- Body of `Bip43::from_str` after the `to_lowercase` call, with the
match arms in source order. -/
def bip43FromLower (t : List Char) : Except Bip43ParseError Bip43 :=
  match (dropPref ("bip".data) t).orElse (fun _ => dropPref ("m/".data) t) with
  | none => .error .unrecognizedBipScheme
  | some b =>
    if b = ("44".data) then .ok .bip44
    else if b = ("84".data) then .ok .bip84
    else if b = ("49".data) then .ok .bip49
    else if b = ("86".data) then .ok .bip86
    else if b = ("45".data) then .ok .bip45
    else if startsWithPref ("48//".data) b then
      match (dropPref ("48//".data) b).bind (fun index => (HdnIdx.from_str index).toOption) with
      | some st =>
        if st.val = 1 then .ok .bip48Nested
        else if st.val = 2 then .ok .bip48Native
        else .error .invalidBip48Scheme
      | none => .error .invalidBip48Scheme
    else if b = ("48-nested".data) then .ok .bip48Nested
    else if b = ("48-native".data) then .ok .bip48Native
    else if b = ("87".data) then .ok .bip87
    else if startsWithPref ("43/".data) b then
      match dropPref ("43/".data) b with
      | some purpose =>
        match HdnIdx.from_str purpose with
        | .ok p => .ok (.bip43 p)
        | .error _ => .error (.invalidPurposeIndex purpose)
      | none => .error .invalidBip43Scheme
    else .error .unrecognizedBipScheme

/-- `impl FromStr for Bip43` from `standard.rs` lines 117-152. -/
def Bip43.from_str (s : List Char) : Except Bip43ParseError Bip43 :=
  bip43FromLower (asciiLower s)

/-- Claim C6: the source violates the documented `< 2^31` representation
invariant of the index model in three ways evaluated here:
`HdnIdx::from_str` performs no bound check on the numeral
(`"2147483648h"` yields an inner value `2^31`); `ChildIdx::from_raw_value`
stores the raw wire value `≥ 2^31` in `HdnIdx` without reducing it; and
the `checked_add_assign` helper assigns the sum before testing the
boundary, leaving `2^31` behind in the mutated slot while returning
`None`. -/
theorem index_invariant_violations :
    HdnIdx.from_str (("2147483648h").data) = .ok ⟨2147483648⟩
    ∧ ChildIdx.from_raw_value 2147483648 = .ok (.hardened ⟨2147483648⟩)
    ∧ NormIdx.checked_add_assign ⟨2147483647⟩ 1 = (none, ⟨2147483648⟩)
    ∧ HARDENED_INDEX_BOUNDARY ≤ 2147483648 := by
  decide

/-- Claim C7: `ChildIdx::from_raw_value 2^31` succeeds but stores the raw
(unreduced) value in the hardened variant, so `first_raw_value` of the
result wraps to `0` instead of returning `2^31` (in debug builds the `u32`
addition panics instead). -/
theorem child_idx_from_raw_value_violation :
    ChildIdx.from_raw_value 2147483648 = .ok (.hardened ⟨2147483648⟩)
    ∧ ChildIdx.first_raw_value (.hardened ⟨2147483648⟩) = 0
    ∧ (0 : Nat) ≠ 2147483648 := by
  decide

/-- Claim C9: the membership test works for `NormIdx`, `HdnIdx` and the
normal arm of `ChildIdx`, but the hardened arm of `ChildIdx::contains`
compares the zero-based inner value against `i | 2^31`, so it rejects the
segment's own raw value: `ChildIdx::Hardened(HdnIdx(0))` has
`first_raw_value = 2^31` yet `contains 2^31` is `false`. -/
theorem child_idx_contains_violation :
    ChildIdx.first_raw_value (.hardened ⟨0⟩) = 2147483648
    ∧ ChildIdx.contains (.hardened ⟨0⟩) 2147483648 = false
    ∧ HdnIdx.contains ⟨0⟩ (HdnIdx.first_index ⟨0⟩) = true
    ∧ ChildIdx.contains (.normal ⟨5⟩) (ChildIdx.first_raw_value (.normal ⟨5⟩)) = true := by
  decide

lemma asciiLowerChar_digit (c : Char) (h : isAsciiDigit c = true) :
    asciiLowerChar c = c := by
  unfold isAsciiDigit at h
  rw [decide_eq_true_eq] at h
  unfold asciiLowerChar
  rw [if_neg]
  omega

lemma asciiLower_digits (ds : List Char) (h : ds.all isAsciiDigit = true) :
    asciiLower ds = ds := by
  induction ds with
  | nil => rfl
  | cons c cs ih =>
    rw [List.all_cons, Bool.and_eq_true] at h
    show asciiLowerChar c :: asciiLower cs = c :: cs
    rw [asciiLowerChar_digit c h.1, ih h.2]

lemma u32FromStr_digits (s : List Char) (n : Nat) (h : u32FromStr s = some n) :
    (u32Digits s).all isAsciiDigit = true := by
  unfold u32FromStr at h
  split_ifs at h with h1 h2 h3
  exact h2

lemma u32FromStr_lower (s : List Char) (n : Nat) (h : u32FromStr s = some n) :
    asciiLower s = s := by
  have hd := u32FromStr_digits s n h
  cases s with
  | nil => rfl
  | cons c cs =>
    by_cases hc : c = '+'
    · subst hc
      have he : u32Digits ('+' :: cs) = cs := by simp [u32Digits]
      rw [he] at hd
      show asciiLowerChar '+' :: asciiLower cs = '+' :: cs
      rw [asciiLower_digits cs hd]
      rfl
    · have he : u32Digits (c :: cs) = c :: cs := by simp [u32Digits, hc]
      rw [he] at hd
      exact asciiLower_digits _ hd

lemma stripSuffixAny_concat_h (s : List Char) :
    stripSuffixAny (s ++ ['h']) = some s := by
  unfold stripSuffixAny
  rw [List.getLast?_concat, List.dropLast_concat]
  simp

lemma hdnIdx_from_str_concat (s : List Char) (n : Nat) (h : u32FromStr s = some n) :
    HdnIdx.from_str (s ++ ['h']) = .ok ⟨n⟩ := by
  simp only [HdnIdx.from_str, stripSuffixAny_concat_h s, h]

lemma bip43FromLower_43h (r : List Char) :
    bip43FromLower (('b' :: 'i' :: 'p' :: '4' :: '3' :: '/' :: r : List Char))
      = (match HdnIdx.from_str r with
         | .ok p => .ok (.bip43 p)
         | .error _ => .error (.invalidPurposeIndex r)) := rfl

/-- Claim C8 counterexample: the claim as stated is false on the code.
`Bip43::from_str` rejects the `m/44h` path-style spelling (only `m/44`
without the suffix parses), and `bip48-foo` fails with
`UnrecognizedBipScheme`, not `InvalidBip48Scheme`. -/
theorem bip43_from_str_claim_counterexample :
    Bip43.from_str (("m/44h").data) = .error .unrecognizedBipScheme
    ∧ Bip43.from_str (("m/44h").data) ≠ .ok .bip44
    ∧ Bip43.from_str (("bip48-foo").data) = .error .unrecognizedBipScheme
    ∧ Bip43.from_str (("bip48-foo").data) ≠ .error .invalidBip48Scheme := by
  decide

/-- Claim C8 amended: `Bip43::from_str`, case-insensitively, maps the
`bipNN` spellings and the suffix-less `m/NN` spellings to their variants;
the `m/NNh` spellings are rejected with `UnrecognizedBipScheme`;
`bip48-nested`, `bip48-native`, `bip48//1h`, `bip48//2h` map to the BIP-48
variants; `bip43/<purpose>` with a hardened-suffixed purpose parses into
`Bip43{purpose}`; `bip99` and `bip48-foo` fail with
`UnrecognizedBipScheme`, `bip48//3h` with `InvalidBip48Scheme`, and the
non-hardened `bip43/5` with `InvalidPurposeIndex`. -/
theorem bip43_from_str_amended :
    (Bip43.from_str (("bip44").data) = .ok .bip44
    ∧ Bip43.from_str (("bip49").data) = .ok .bip49
    ∧ Bip43.from_str (("bip84").data) = .ok .bip84
    ∧ Bip43.from_str (("bip86").data) = .ok .bip86
    ∧ Bip43.from_str (("bip45").data) = .ok .bip45
    ∧ Bip43.from_str (("bip87").data) = .ok .bip87
    ∧ Bip43.from_str (("m/44").data) = .ok .bip44
    ∧ Bip43.from_str (("m/49").data) = .ok .bip49
    ∧ Bip43.from_str (("m/84").data) = .ok .bip84
    ∧ Bip43.from_str (("m/86").data) = .ok .bip86
    ∧ Bip43.from_str (("m/45").data) = .ok .bip45
    ∧ Bip43.from_str (("m/87").data) = .ok .bip87
    ∧ Bip43.from_str (("BIP44").data) = .ok .bip44
    ∧ Bip43.from_str (("M/44").data) = .ok .bip44
    ∧ Bip43.from_str (("bip48-nested").data) = .ok .bip48Nested
    ∧ Bip43.from_str (("bip48-native").data) = .ok .bip48Native
    ∧ Bip43.from_str (("bip48//1h").data) = .ok .bip48Nested
    ∧ Bip43.from_str (("bip48//2h").data) = .ok .bip48Native
    ∧ Bip43.from_str (("BIP48-NESTED").data) = .ok .bip48Nested
    ∧ Bip43.from_str (("m/44h").data) = .error .unrecognizedBipScheme
    ∧ Bip43.from_str (("m/49h").data) = .error .unrecognizedBipScheme
    ∧ Bip43.from_str (("m/84h").data) = .error .unrecognizedBipScheme
    ∧ Bip43.from_str (("m/86h").data) = .error .unrecognizedBipScheme
    ∧ Bip43.from_str (("m/45h").data) = .error .unrecognizedBipScheme
    ∧ Bip43.from_str (("m/87h").data) = .error .unrecognizedBipScheme
    ∧ Bip43.from_str (("bip99").data) = .error .unrecognizedBipScheme
    ∧ Bip43.from_str (("bip48-foo").data) = .error .unrecognizedBipScheme
    ∧ Bip43.from_str (("bip48//3h").data) = .error .invalidBip48Scheme
    ∧ Bip43.from_str (("bip43/5").data) = .error (.invalidPurposeIndex (("5").data)))
    ∧ (∀ s n, u32FromStr s = some n →
        Bip43.from_str (("bip43/").data ++ s ++ ['h']) = .ok (.bip43 ⟨n⟩)) := by
  constructor
  · decide
  · intro s n h
    have hs : List.map asciiLowerChar s = s := u32FromStr_lower s n h
    have h1 : asciiLower (("bip43/").data ++ s ++ ['h'])
        = ('b' :: 'i' :: 'p' :: '4' :: '3' :: '/' :: (s ++ ['h']) : List Char) := by
      simp only [asciiLower, List.map_append, hs]
      rfl
    unfold Bip43.from_str
    rw [h1, bip43FromLower_43h, hdnIdx_from_str_concat s n h]

/-- Witness for the amended claim C8: the generic `bip43/<purpose>h` form
at the concrete purpose `5`. -/
theorem bip43_from_str_amended_witness :
    Bip43.from_str (("bip43/5h").data) = .ok (.bip43 ⟨5⟩) :=
  bip43_from_str_amended.2 (("5").data) 5 (by decide)

/-- The `FromBase58Error` variants of the `base58` collaborator crate. -/
inductive Base58Error where
  | invalidCharacter (c : Char) (pos : Nat)
  | invalidLength
deriving DecidableEq

/-- The cryptographic / encoding collaborators consumed by `xpub.rs`.
These crates (`bitcoin_hashes`, `secp256k1`, `base58`) are external to the
repository, so they are abstracted as byte-level functions:
`hmacSha512 key data` is the 64-byte HMAC-SHA512; `ripemd160` the 20-byte
digest; `sha256d` the 32-byte double SHA-256; `scalarValid` the success of
`secp256k1::SecretKey::from_slice`; `addExpTweak pk il` the compressed
serialization of `pk + il.G` (`None` when the scalar tweak fails);
`validPk` the success of `secp256k1::PublicKey::from_slice` on 33 bytes
(re-serializing a successfully parsed compressed key is the identity, so a
public key is represented by its 33 serialized bytes). -/
structure Crypto where
  hmacSha512 : List Nat → List Nat → List Nat
  ripemd160 : List Nat → List Nat
  sha256d : List Nat → List Nat
  scalarValid : List Nat → Bool
  addExpTweak : List Nat → List Nat → Option (List Nat)
  validPk : List Nat → Bool
  base58Encode : List Nat → List Char
  base58Decode : List Char → Except Base58Error (List Nat)

/-- `XKEY_LEN` from `xkey.rs`: length of the binary extended key. -/
def XKEY_LEN : Nat := 78

/-- `Xpub::MAGIC_TESTNET`: `[0x04, 0x35, 0x87, 0xCF]`. -/
def MAGIC_TESTNET : List Nat := [0x04, 0x35, 0x87, 0xCF]

/-- `Xpub::MAGIC_MAINNET`: `[0x04, 0x88, 0xB2, 0x1E]`. -/
def MAGIC_MAINNET : List Nat := [0x04, 0x88, 0xB2, 0x1E]

/-- `Xpub` from `xpub.rs`: a flat 78-byte backing array
(`pub struct Xpub([u8; XKEY_LEN])`). -/
structure Xpub where
  bytes : List Nat
deriving DecidableEq

/-- `XkeyDecodeError` from `xkey.rs`. -/
inductive XkeyDecodeError where
  | invalidLen (n : Nat)
  | invalidKey (bytes : List Nat)
deriving DecidableEq

/-- `XkeyParseError` from `xkey.rs`. -/
inductive XkeyParseError where
  | invalidBase58Character (c : Char) (pos : Nat)
  | invalidBase58Length
  | invalidLen (n : Nat)
  | invalidChecksum (expected actual : List Nat)
  | decode (e : XkeyDecodeError)
deriving DecidableEq

/-- Outcome of `Xpub::ckd_pub` / `Xpub::derive`: success, the
`TooDeepDerivation` error, or a Rust panic raised by one of the two
`.expect("negligible probability")` calls. -/
inductive CkdResult where
  | ok (x : Xpub)
  | tooDeepDerivation
  | panicked
deriving DecidableEq

/-- `Xpub::is_testnet`: compares the first four backing bytes with the
testnet magic. -/
def Xpub.is_testnet (x : Xpub) : Bool := x.bytes.take 4 == MAGIC_TESTNET

/-- `Xpub::is_mainnet`: `!self.is_testnet()`. -/
def Xpub.is_mainnet (x : Xpub) : Bool := !x.is_testnet

/-- `Xpub::depth`: byte 4 of the backing array. -/
def Xpub.depth (x : Xpub) : Nat := x.bytes.getD 4 0

/-- `Xpub::parent_fingerprint`: bytes 5..9 of the backing array. -/
def Xpub.parent_fingerprint (x : Xpub) : List Nat := (x.bytes.drop 5).take 4

/-- Bytes 9..13 of the backing array: the raw child number, big-endian
(read by `Xpub::child_number`). -/
def Xpub.child_number_bytes (x : Xpub) : List Nat := (x.bytes.drop 9).take 4

/-- `Xpub::chain_code`: bytes 13..45 of the backing array. -/
def Xpub.chain_code (x : Xpub) : List Nat := (x.bytes.drop 13).take 32

/-- `Xpub::public_key`: bytes 45..78 of the backing array (the compressed
serialization; parsing and re-serializing a valid compressed key is the
identity). -/
def Xpub.public_key (x : Xpub) : List Nat := (x.bytes.drop 45).take 33

/-- `Xpub::identifier`: RIPEMD-160 over the serialized public key. -/
def Xpub.identifier (C : Crypto) (x : Xpub) : List Nat := C.ripemd160 x.public_key

/-- `Xpub::fingerprint`: the first four bytes of the identifier. -/
def Xpub.fingerprint (C : Crypto) (x : Xpub) : List Nat := (x.identifier C).take 4

/-- `u32::to_be_bytes`. -/
def be32 (n : Nat) : List Nat :=
  [n / 2 ^ 24 % 256, n / 2 ^ 16 % 256, n / 2 ^ 8 % 256, n % 256]

/-- `Xpub::ckd_pub` from `xpub.rs` lines 100-135.  The two
`.expect("negligible probability")` calls of the source (secret-key parse
of the first 32 HMAC bytes, and the point tweak) surface as `panicked`.
On success the child backing array keeps bytes 0..4 and overwrites byte 4
with `depth + 1` (a `u8` addition, guarded by the depth check), bytes 5..9
with the parent fingerprint, bytes 9..13 with the big-endian raw index,
bytes 13..45 with the last 32 HMAC bytes and bytes 45..78 with the
tweaked key. -/
def Xpub.ckd_pub (C : Crypto) (x : Xpub) (index : NormIdx) : CkdResult :=
  if x.depth = 255 then .tooDeepDerivation
  else
    let pk := x.public_key
    let hmacResult := C.hmacSha512 x.chain_code (pk ++ be32 index.first_raw_value)
    if C.scalarValid (hmacResult.take 32) = false then .panicked
    else
      match C.addExpTweak pk (hmacResult.take 32) with
      | none => .panicked
      | some tweaked =>
        .ok ⟨x.bytes.take 4 ++ [(x.depth + 1) % 256] ++ x.fingerprint C
            ++ be32 index.first_raw_value ++ (hmacResult.drop 32).take 32 ++ tweaked⟩

/-- `Xpub::derive`: sequential `ckd_pub`, short-circuiting on the first
failure. -/
def Xpub.derive (C : Crypto) (x : Xpub) : List NormIdx → CkdResult
  | [] => .ok x
  | i :: rest =>
    match Xpub.ckd_pub C x i with
    | .ok y => Xpub.derive C y rest
    | r => r

/-- `Xpub::decode_binary` from `xpub.rs` lines 138-148. -/
def Xpub.decode_binary (C : Crypto) (binary : List Nat) : Except XkeyDecodeError Xpub :=
  if binary.length ≠ XKEY_LEN then .error (.invalidLen binary.length)
  else
    if C.validPk ((binary.drop 45).take 33) = false then
      .error (.invalidKey ((binary.drop 45).take 33))
    else .ok ⟨binary⟩

/-- `Xpub::encode_binary`. -/
def Xpub.encode_binary (x : Xpub) : List Nat := x.bytes

/-- `impl Display for Xpub`: Base58 of the 78 binary bytes followed by the
first 4 bytes of their double SHA-256. -/
def Xpub.display (C : Crypto) (x : Xpub) : List Char :=
  C.base58Encode (x.encode_binary ++ (C.sha256d x.encode_binary).take 4)

/-- `impl FromStr for Xpub` from `xpub.rs` lines 190-216. -/
def Xpub.from_str (C : Crypto) (inp : List Char) : Except XkeyParseError Xpub :=
  match C.base58Decode inp with
  | .error (.invalidCharacter c p) => .error (.invalidBase58Character c p)
  | .error .invalidLength => .error .invalidBase58Length
  | .ok data =>
    if data.length ≠ XKEY_LEN + 4 then .error (.invalidLen data.length)
    else
      if (C.sha256d (data.take (data.length - 4))).take 4 ≠ data.drop (data.length - 4) then
        .error (.invalidChecksum (data.drop (data.length - 4))
          ((C.sha256d (data.take (data.length - 4))).take 4))
      else
        match Xpub.decode_binary C (data.take (data.length - 4)) with
        | .ok x => .ok x
        | .error e => .error (.decode e)

/-- A concrete collaborator record used by the witnesses: every theorem
about `Xpub` is proved for an arbitrary `Crypto`, and the witnesses
evaluate it on this trivial instantiation. -/
def dummyC : Crypto where
  hmacSha512 := fun _ _ => List.range 64
  ripemd160 := fun _ => List.replicate 20 7
  sha256d := fun _ => List.replicate 32 9
  scalarValid := fun _ => true
  addExpTweak := fun pk _ => some pk
  validPk := fun _ => true
  base58Encode := fun _ => []
  base58Decode := fun _ => .ok (List.replicate 78 0 ++ List.replicate 4 9)

lemma take_of_len_eq (l : List Nat) (n : Nat) (h : l.length = n) : l.take n = l := by
  rw [← h, List.take_length]

lemma mk_chain_code (l : List Nat) : (Xpub.mk l).chain_code = (l.drop 13).take 32 := rfl

lemma mk_public_key (l : List Nat) : (Xpub.mk l).public_key = (l.drop 45).take 33 := rfl

lemma mk_depth (l : List Nat) : (Xpub.mk l).depth = l.getD 4 0 := rfl

lemma mk_parent_fingerprint (l : List Nat) :
    (Xpub.mk l).parent_fingerprint = (l.drop 5).take 4 := rfl

lemma mk_child_number_bytes (l : List Nat) :
    (Xpub.mk l).child_number_bytes = (l.drop 9).take 4 := rfl

lemma build_take4 (a b c d e : List Nat) (v : Nat) (ha : a.length = 4) :
    (a ++ [v] ++ b ++ c ++ d ++ e).take 4 = a := by
  have h1 : a ++ [v] ++ b ++ c ++ d ++ e = a ++ ([v] ++ (b ++ (c ++ (d ++ e)))) := by
    simp [List.append_assoc]
  rw [h1, List.take_left' ha]

lemma build_depth (a b c d e : List Nat) (v : Nat) (ha : a.length = 4) :
    (a ++ [v] ++ b ++ c ++ d ++ e).getD 4 0 = v := by
  have h1 : a ++ [v] ++ b ++ c ++ d ++ e = a ++ ([v] ++ (b ++ (c ++ (d ++ e)))) := by
    simp [List.append_assoc]
  rw [h1, List.getD_append_right _ _ _ _ (by rw [ha]), ha]
  simp

lemma build_fp (a b c d e : List Nat) (v : Nat) (ha : a.length = 4) (hb : b.length = 4) :
    ((a ++ [v] ++ b ++ c ++ d ++ e).drop 5).take 4 = b := by
  have h1 : a ++ [v] ++ b ++ c ++ d ++ e = (a ++ [v]) ++ (b ++ (c ++ (d ++ e))) := by
    simp [List.append_assoc]
  rw [h1, List.drop_left' (show (a ++ [v]).length = 5 by simp [ha]), List.take_left' hb]

lemma build_cn (a b c d e : List Nat) (v : Nat) (ha : a.length = 4) (hb : b.length = 4)
    (hc : c.length = 4) :
    ((a ++ [v] ++ b ++ c ++ d ++ e).drop 9).take 4 = c := by
  have h1 : a ++ [v] ++ b ++ c ++ d ++ e = (a ++ [v] ++ b) ++ (c ++ (d ++ e)) := by
    simp [List.append_assoc]
  rw [h1, List.drop_left' (show (a ++ [v] ++ b).length = 9 by simp [ha, hb]),
    List.take_left' hc]

lemma build_cc (a b c d e : List Nat) (v : Nat) (ha : a.length = 4) (hb : b.length = 4)
    (hc : c.length = 4) (hd : d.length = 32) :
    ((a ++ [v] ++ b ++ c ++ d ++ e).drop 13).take 32 = d := by
  have h1 : a ++ [v] ++ b ++ c ++ d ++ e = (a ++ [v] ++ b ++ c) ++ (d ++ e) := by
    simp [List.append_assoc]
  rw [h1, List.drop_left' (show (a ++ [v] ++ b ++ c).length = 13 by simp [ha, hb, hc]),
    List.take_left' hd]

lemma build_pk (a b c d e : List Nat) (v : Nat) (ha : a.length = 4) (hb : b.length = 4)
    (hc : c.length = 4) (hd : d.length = 32) :
    ((a ++ [v] ++ b ++ c ++ d ++ e).drop 45).take 33 = e.take 33 := by
  have h1 : a ++ [v] ++ b ++ c ++ d ++ e = (a ++ [v] ++ b ++ c ++ d) ++ e := by
    simp [List.append_assoc]
  rw [h1, List.drop_left' (show (a ++ [v] ++ b ++ c ++ d).length = 45 by
    simp [ha, hb, hc, hd])]

lemma build_len (a b c d e : List Nat) (v : Nat) (ha : a.length = 4) (hb : b.length = 4)
    (hc : c.length = 4) (hd : d.length = 32) :
    (a ++ [v] ++ b ++ c ++ d ++ e).length = 45 + e.length := by
  simp [List.length_append, ha, hb, hc, hd]
  omega

/-- Inversion of a successful `ckd_pub` call: the depth guard passed, the
tweak succeeded, and the child's backing bytes are the documented
concatenation. -/
lemma ckd_pub_ok_elim (C : Crypto) (x : Xpub) (i : NormIdx) (y : Xpub)
    (h : Xpub.ckd_pub C x i = .ok y) :
    x.depth ≠ 255 ∧
    ∃ t, C.addExpTweak x.public_key
        ((C.hmacSha512 x.chain_code (x.public_key ++ be32 i.first_raw_value)).take 32) = some t
      ∧ C.scalarValid
          ((C.hmacSha512 x.chain_code (x.public_key ++ be32 i.first_raw_value)).take 32) = true
      ∧ y.bytes = x.bytes.take 4 ++ [(x.depth + 1) % 256] ++ x.fingerprint C
          ++ be32 i.first_raw_value
          ++ ((C.hmacSha512 x.chain_code
              (x.public_key ++ be32 i.first_raw_value)).drop 32).take 32
          ++ t := by
  simp only [Xpub.ckd_pub] at h
  split_ifs at h with hd hs
  rcases htw : C.addExpTweak x.public_key
      ((C.hmacSha512 x.chain_code (x.public_key ++ be32 i.first_raw_value)).take 32)
    with _ | t
  · rw [htw] at h
    simp at h
  · rw [htw] at h
    simp only [CkdResult.ok.injEq] at h
    simp only [Bool.not_eq_false] at hs
    refine ⟨hd, t, rfl, hs, ?_⟩
    subst h
    simp [List.append_assoc]

/-- `ckd_pub` returns `TooDeepDerivation` exactly when the parent's depth
byte is 255. -/
lemma ckd_pub_tooDeep_iff (C : Crypto) (x : Xpub) (i : NormIdx) :
    Xpub.ckd_pub C x i = .tooDeepDerivation ↔ x.depth = 255 := by
  simp only [Xpub.ckd_pub]
  split_ifs with hd hs
  · simp [hd]
  · simp [hd]
  · constructor
    · intro h
      split at h <;> simp at h
    · intro h
      exact absurd h hd

/-- A `Crypto` record whose secret-key parse always fails, exhibiting the
first `.expect("negligible probability")` path of `ckd_pub`. -/
def badScalarC : Crypto := { dummyC with scalarValid := fun _ => false }

/-- A `Crypto` record whose point tweak always fails, exhibiting the
second `.expect("negligible probability")` path of `ckd_pub`. -/
def badTweakC : Crypto := { dummyC with addExpTweak := fun _ _ => none }

/-- Claim C3: on the two tweak-failure paths (first 32 HMAC bytes not a
valid scalar; tweaked point at infinity) the source calls
`.expect("negligible probability")` and PANICS instead of returning a
derivation error value: evaluated on collaborators that fail those steps,
`ckd_pub` ends in the `panicked` outcome, not an error value. -/
theorem ckd_pub_panics_on_tweak_failure :
    Xpub.ckd_pub badScalarC ⟨List.replicate 78 0⟩ ⟨0⟩ = .panicked
    ∧ Xpub.ckd_pub badTweakC ⟨List.replicate 78 0⟩ ⟨0⟩ = .panicked
    ∧ Xpub.ckd_pub badScalarC ⟨List.replicate 78 0⟩ ⟨0⟩ ≠ .tooDeepDerivation
    ∧ Xpub.ckd_pub badTweakC ⟨List.replicate 78 0⟩ ⟨0⟩ ≠ .tooDeepDerivation := by
  decide

/-- Claim C4: `decode_binary` fails with `InvalidLen(n)` exactly when the
input length `n` differs from 78; on a 78-byte input it fails with
`InvalidKey` carrying bytes 45..78 exactly when the key collaborator
rejects them; and whenever decoding succeeds, `encode_binary` of the
result returns the input byte-for-byte. -/
theorem decode_binary_characterization (C : Crypto) (buf : List Nat) :
    (∀ n, Xpub.decode_binary C buf = .error (.invalidLen n)
      ↔ (n = buf.length ∧ buf.length ≠ 78))
    ∧ (buf.length = 78 →
        ∀ k, Xpub.decode_binary C buf = .error (.invalidKey k)
          ↔ (k = (buf.drop 45).take 33 ∧ C.validPk ((buf.drop 45).take 33) = false))
    ∧ (∀ x, Xpub.decode_binary C buf = .ok x → x.encode_binary = buf) := by
  unfold Xpub.decode_binary XKEY_LEN
  refine ⟨?_, ?_, ?_⟩
  · intro n
    split_ifs with h1 h2
    · simp [h1, eq_comm]
    · simp [h1]
    · simp [h1]
  · intro hlen k
    split_ifs with h1 h2
    · exact absurd hlen h1
    · simp [h2, eq_comm]
    · simp only [Bool.not_eq_false] at h2
      simp [h2]
  · intro x
    split_ifs with h1 h2
    · simp
    · simp
    · intro h
      simp only [Except.ok.injEq] at h
      rw [← h]
      rfl

/-- Witness for claim C4 at a concrete 78-byte buffer and the trivial
collaborator. -/
theorem decode_binary_characterization_witness :
    (Xpub.mk (List.replicate 78 0)).encode_binary = List.replicate 78 0 :=
  (decode_binary_characterization dummyC (List.replicate 78 0)).2.2
    ⟨List.replicate 78 0⟩ (by decide)

/-- Claim C10: `decode_binary` performs no version-magic validation — any
78-byte input whose bytes 45..78 pass the key collaborator decodes
successfully regardless of its first four bytes; the result reports
`is_testnet` exactly when bytes 0..4 equal `04 35 87 CF`, and every other
prefix is classified as mainnet (`is_mainnet = !is_testnet`). -/
theorem decode_binary_ignores_magic (C : Crypto) (buf : List Nat)
    (hlen : buf.length = 78)
    (hpk : C.validPk ((buf.drop 45).take 33) = true) :
    Xpub.decode_binary C buf = .ok ⟨buf⟩
    ∧ ((Xpub.mk buf).is_testnet = true ↔ buf.take 4 = [0x04, 0x35, 0x87, 0xCF])
    ∧ (Xpub.mk buf).is_mainnet = !(Xpub.mk buf).is_testnet := by
  refine ⟨?_, ?_, rfl⟩
  · unfold Xpub.decode_binary XKEY_LEN
    simp [hlen, hpk]
  · simp [Xpub.is_testnet, MAGIC_TESTNET]

/-- Witness for claim C10: an all-zero 78-byte buffer (garbage magic)
decodes fine and is classified as mainnet. -/
theorem decode_binary_ignores_magic_witness :
    Xpub.decode_binary dummyC (List.replicate 78 0) = .ok ⟨List.replicate 78 0⟩
    ∧ ((Xpub.mk (List.replicate 78 0)).is_testnet = true
        ↔ (List.replicate 78 0).take 4 = [0x04, 0x35, 0x87, 0xCF])
    ∧ (Xpub.mk (List.replicate 78 0)).is_mainnet
        = !(Xpub.mk (List.replicate 78 0)).is_testnet :=
  decode_binary_ignores_magic dummyC (List.replicate 78 0) (by decide) (by decide)

/-- Claim C2: `ckd_pub` on a depth-255 parent fails with
`TooDeepDerivation`; on any parent of depth ≤ 254 the depth precondition
passes (the result is never the depth error) and a successful derivation
yields a child of depth exactly `parent.depth + 1`; and over any sequence
of successful derivations the depth byte stays ≤ 255 — it never silently
wraps past 255. -/
theorem ckd_pub_depth_boundary (C : Crypto) :
    (∀ (x : Xpub) (i : NormIdx), x.depth = 255 →
        Xpub.ckd_pub C x i = .tooDeepDerivation)
    ∧ (∀ (x : Xpub) (i : NormIdx), x.depth ≤ 254 →
        Xpub.ckd_pub C x i ≠ .tooDeepDerivation)
    ∧ (∀ (x : Xpub) (i : NormIdx) (y : Xpub), 4 ≤ x.bytes.length → x.depth ≤ 254 →
        Xpub.ckd_pub C x i = .ok y → y.depth = x.depth + 1)
    ∧ (∀ (x : Xpub) (path : List NormIdx) (y : Xpub), 4 ≤ x.bytes.length →
        x.depth ≤ 255 → Xpub.derive C x path = .ok y → y.depth ≤ 255) := by
  have hstep : ∀ (x : Xpub) (i : NormIdx) (y : Xpub), 4 ≤ x.bytes.length →
      Xpub.ckd_pub C x i = .ok y →
      y.depth = (x.depth + 1) % 256 ∧ 4 ≤ y.bytes.length := by
    intro x i y hlen h
    obtain ⟨hne, t, _, _, hbytes⟩ := ckd_pub_ok_elim C x i y h
    have ha : (x.bytes.take 4).length = 4 := by
      simp only [List.length_take]
      omega
    constructor
    · unfold Xpub.depth
      rw [hbytes]
      exact build_depth _ _ _ _ _ _ ha
    · rw [hbytes]
      simp only [List.length_append, ha]
      omega
  refine ⟨?_, ?_, ?_, ?_⟩
  · intro x i h
    exact (ckd_pub_tooDeep_iff C x i).mpr h
  · intro x i hd hc
    have := (ckd_pub_tooDeep_iff C x i).mp hc
    omega
  · intro x i y hlen hd h
    have := (hstep x i y hlen h).1
    rw [this, Nat.mod_eq_of_lt (by omega)]
  · intro x path
    induction path generalizing x with
    | nil =>
      intro y hlen hd h
      simp only [Xpub.derive, CkdResult.ok.injEq] at h
      rw [← h]
      exact hd
    | cons i rest ih =>
      intro y hlen hd h
      simp only [Xpub.derive] at h
      rcases hc : Xpub.ckd_pub C x i with z | _ | _
      · rw [hc] at h
        obtain ⟨hzd, hzlen⟩ := hstep x i z hlen hc
        refine ih z y hzlen ?_ h
        rw [hzd]
        have := Nat.mod_lt (x.depth + 1) (show 0 < 256 by omega)
        omega
      · rw [hc] at h
        simp at h
      · rw [hc] at h
        simp at h

/-- Witness for claim C2: a depth-255 parent fails with
`TooDeepDerivation`, and the child of a concrete depth-254 parent has
depth 255. -/
theorem ckd_pub_depth_boundary_witness :
    Xpub.ckd_pub dummyC ⟨List.replicate 4 0 ++ [255] ++ List.replicate 73 0⟩ ⟨0⟩
      = .tooDeepDerivation
    ∧ (Xpub.mk ([0, 0, 0, 0, 255, 7, 7, 7, 7, 0, 0, 0, 0]
          ++ ((List.range 64).drop 32).take 32 ++ List.replicate 33 0)).depth
      = (Xpub.mk (List.replicate 4 0 ++ [254] ++ List.replicate 73 0)).depth + 1 :=
  ⟨(ckd_pub_depth_boundary dummyC).1
      ⟨List.replicate 4 0 ++ [255] ++ List.replicate 73 0⟩ ⟨0⟩ (by decide),
   (ckd_pub_depth_boundary dummyC).2.2.1
      ⟨List.replicate 4 0 ++ [254] ++ List.replicate 73 0⟩ ⟨0⟩
      ⟨[0, 0, 0, 0, 255, 7, 7, 7, 7, 0, 0, 0, 0]
        ++ ((List.range 64).drop 32).take 32 ++ List.replicate 33 0⟩
      (by decide) (by decide) (by decide)⟩

/-- Claim C1: for a parent of depth < 255 and a normal index `i < 2^31`,
on the success path of the collaborator (valid scalar, successful tweak),
`ckd_pub` returns a child whose chain code is the last 32 bytes of
HMAC-SHA512 keyed with the parent chain code over the 33-byte compressed
public key followed by the big-endian raw index; whose public key is the
tweak result `parent_key + IL·G`; and whose depth is `parent.depth + 1`,
parent fingerprint is `parent.fingerprint()`, bytes 9..13 hold the
big-endian raw index, and the version bytes 0..4 are copied from the
parent. -/
theorem ckd_pub_correct (C : Crypto) (x : Xpub) (i : NormIdx) (t : List Nat)
    (hx : x.bytes.length = 78)
    (hd : x.depth < 255)
    (hi : i.val < HARDENED_INDEX_BOUNDARY)
    (hhm : (C.hmacSha512 x.chain_code (x.public_key ++ be32 i.first_raw_value)).length = 64)
    (hrip : (C.ripemd160 x.public_key).length = 20)
    (hsc : C.scalarValid
        ((C.hmacSha512 x.chain_code (x.public_key ++ be32 i.first_raw_value)).take 32) = true)
    (htw : C.addExpTweak x.public_key
        ((C.hmacSha512 x.chain_code (x.public_key ++ be32 i.first_raw_value)).take 32)
      = some t)
    (ht : t.length = 33) :
    ∃ y, Xpub.ckd_pub C x i = .ok y
      ∧ y.chain_code
          = (C.hmacSha512 x.chain_code (x.public_key ++ be32 i.first_raw_value)).drop 32
      ∧ y.public_key = t
      ∧ y.depth = x.depth + 1
      ∧ y.parent_fingerprint = x.fingerprint C
      ∧ y.child_number_bytes = be32 i.first_raw_value
      ∧ y.bytes.take 4 = x.bytes.take 4 := by
  have hne : ¬ x.depth = 255 := by omega
  have hck : Xpub.ckd_pub C x i
      = .ok ⟨x.bytes.take 4 ++ [(x.depth + 1) % 256] ++ x.fingerprint C
          ++ be32 i.first_raw_value
          ++ ((C.hmacSha512 x.chain_code
              (x.public_key ++ be32 i.first_raw_value)).drop 32).take 32
          ++ t⟩ := by
    simp only [Xpub.ckd_pub, hsc, htw]
    simp [hne, List.append_assoc]
  have ha : (x.bytes.take 4).length = 4 := by
    simp only [List.length_take]
    omega
  have hfp4 : (x.fingerprint C).length = 4 := by
    simp only [Xpub.fingerprint, Xpub.identifier, List.length_take, hrip]
    omega
  have hcn4 : (be32 i.first_raw_value).length = 4 := rfl
  have hirlen : ((C.hmacSha512 x.chain_code
      (x.public_key ++ be32 i.first_raw_value)).drop 32).length = 32 := by
    simp [List.length_drop, hhm]
  have hir : (((C.hmacSha512 x.chain_code
      (x.public_key ++ be32 i.first_raw_value)).drop 32).take 32).length = 32 := by
    simp only [List.length_take, hirlen]
    omega
  refine ⟨_, hck, ?_, ?_, ?_, ?_, ?_, ?_⟩
  · rw [mk_chain_code, build_cc _ _ _ _ _ _ ha hfp4 hcn4 hir]
    exact take_of_len_eq _ _ hirlen
  · rw [mk_public_key, build_pk _ _ _ _ _ _ ha hfp4 hcn4 hir]
    exact take_of_len_eq _ _ ht
  · rw [mk_depth, build_depth _ _ _ _ _ _ ha]
    exact Nat.mod_eq_of_lt (by omega)
  · rw [mk_parent_fingerprint]
    exact build_fp _ _ _ _ _ _ ha hfp4
  · rw [mk_child_number_bytes]
    exact build_cn _ _ _ _ _ _ ha hfp4 hcn4
  · exact build_take4 _ _ _ _ _ _ ha

/-- Witness for claim C1 at the trivial collaborator, an all-zero 78-byte
parent and index 0. -/
theorem ckd_pub_correct_witness :
    ∃ y, Xpub.ckd_pub dummyC ⟨List.replicate 78 0⟩ ⟨0⟩ = .ok y
      ∧ y.chain_code
          = (dummyC.hmacSha512 (Xpub.mk (List.replicate 78 0)).chain_code
              ((Xpub.mk (List.replicate 78 0)).public_key
                ++ be32 (NormIdx.mk 0).first_raw_value)).drop 32
      ∧ y.public_key = List.replicate 33 0
      ∧ y.depth = (Xpub.mk (List.replicate 78 0)).depth + 1
      ∧ y.parent_fingerprint = (Xpub.mk (List.replicate 78 0)).fingerprint dummyC
      ∧ y.child_number_bytes = be32 (NormIdx.mk 0).first_raw_value
      ∧ y.bytes.take 4 = (Xpub.mk (List.replicate 78 0)).bytes.take 4 :=
  ckd_pub_correct dummyC ⟨List.replicate 78 0⟩ ⟨0⟩ (List.replicate 33 0)
    (by decide) (by decide) (by decide) (by decide) (by decide) (by decide)
    (by decide) (by decide)

/-- Claim C5: Base58Check round-trip — for any `Xpub` (78 backing bytes
with a collaborator-valid key field, under a Base58 codec that decodes its
own encoding), `from_str (display x) = Ok x`; `from_str` fails with
`InvalidLen(n)` when the Base58-decoded payload length `n` differs from
82; and it fails with `InvalidChecksum{expected, actual}` carrying the
trailing four decoded bytes (expected) and the recomputed double-SHA256
head (actual) when those differ. -/
theorem xpub_base58_roundtrip (C : Crypto) :
    (∀ x : Xpub, x.bytes.length = 78 →
        (C.sha256d x.bytes).length = 32 →
        C.validPk ((x.bytes.drop 45).take 33) = true →
        C.base58Decode (Xpub.display C x) = .ok (x.bytes ++ (C.sha256d x.bytes).take 4) →
        Xpub.from_str C (Xpub.display C x) = .ok x)
    ∧ (∀ (s : List Char) (data : List Nat), C.base58Decode s = .ok data →
        data.length ≠ 82 → Xpub.from_str C s = .error (.invalidLen data.length))
    ∧ (∀ (s : List Char) (data : List Nat), C.base58Decode s = .ok data →
        data.length = 82 →
        (C.sha256d (data.take 78)).take 4 ≠ data.drop 78 →
        Xpub.from_str C s = .error (.invalidChecksum (data.drop 78)
          ((C.sha256d (data.take 78)).take 4))) := by
  refine ⟨?_, ?_, ?_⟩
  · intro x hlen hsha hvp hb
    have hchk : ((C.sha256d x.bytes).take 4).length = 4 := by
      simp only [List.length_take, hsha]
      omega
    have hdl : (x.bytes ++ (C.sha256d x.bytes).take 4).length = 82 := by
      simp only [List.length_append, hlen, hchk]
    simp only [Xpub.from_str, hb, hdl, XKEY_LEN]
    rw [if_neg (by omega)]
    have h82 : (82 : Nat) - 4 = 78 := by omega
    rw [h82, List.take_left' hlen, List.drop_left' hlen]
    rw [if_neg (by simp)]
    simp only [Xpub.decode_binary, XKEY_LEN, hlen]
    rw [if_neg (by omega), if_neg (by simp [hvp])]
  · intro s data hb hlen
    simp only [Xpub.from_str, hb, XKEY_LEN]
    rw [if_pos hlen]
  · intro s data hb hlen hneq
    simp only [Xpub.from_str, hb, XKEY_LEN, hlen]
    rw [if_neg (by omega)]
    have h82 : (82 : Nat) - 4 = 78 := by omega
    rw [h82, if_pos hneq]

/-- Witness for claim C5: the round-trip at the trivial collaborator and
the all-zero `Xpub`. -/
theorem xpub_base58_roundtrip_witness :
    Xpub.from_str dummyC (Xpub.display dummyC ⟨List.replicate 78 0⟩)
      = .ok ⟨List.replicate 78 0⟩ :=
  (xpub_base58_roundtrip dummyC).1 ⟨List.replicate 78 0⟩
    (by decide) (by decide) (by decide) (by decide)

end BPBips
